import Mathlib

/-!
A shallow embedding of the NoClip server (src/main.py).

The three SQLAlchemy relations — users, friendships, clips — are modelled
as lists of rows kept in insertion order.  A SQLAlchemy `query(...).first()`
becomes `List.find?`; `db.add` followed by `commit` appends the new row;
an in-place ORM update of a fetched row rewrites that row where it sits.
Raising `HTTPException` becomes returning `Except.error` with the matching
error kind, and a handler that raises leaves the state untouched (no commit
ran).  Each HTTP handler is the API-key guard `get_current_user` composed
with the body of the route function.
-/

/-- A row of the `users` table: `id` (primary key) and `api_key` (unique). -/
structure User where
  id : String
  api_key : String
  deriving DecidableEq, Repr

/-- A row of the `friendships` table: the directed edge `(user_id, friend_id)`. -/
structure Friendship where
  user_id : String
  friend_id : String
  deriving DecidableEq, Repr

/-- A row of the `clips` table, keyed by `(owner_id, bucket)`. -/
structure Clip where
  owner_id : String
  bucket : String
  content : String
  deriving DecidableEq, Repr

/-- The whole database: the three relations, rows in insertion order. -/
structure DB where
  users : List User
  friendships : List Friendship
  clips : List Clip
  deriving DecidableEq, Repr

/-- The error kinds the handlers raise via `HTTPException`. -/
inductive ApiError where
  | unauthorized
  | invalidRequest
  | forbidden
  | notFound
  deriving DecidableEq, Repr

/-- The HTTP status code each error kind is raised with in src/main.py. -/
def ApiError.status : ApiError → Nat
  | .unauthorized => 401
  | .invalidRequest => 400
  | .forbidden => 403
  | .notFound => 404

/-- `db.query(User).filter(User.api_key == api_key).first()` (main.py line 68). -/
def DB.findUserByApiKey (db : DB) (key : String) : Option User :=
  db.users.find? (fun u => u.api_key == key)

/-- `db.query(User).filter(User.id == uid).first()` (main.py line 109). -/
def DB.findUserById (db : DB) (uid : String) : Option User :=
  db.users.find? (fun u => u.id == uid)

/-- The disjunctive two-orientation friendship query used at main.py
lines 91-94 and 113-116. -/
def DB.friendshipQuery (db : DB) (a b : String) : Option Friendship :=
  db.friendships.find? (fun f =>
    (f.user_id == a && f.friend_id == b) || (f.user_id == b && f.friend_id == a))

/-- `db.query(Clip).filter(Clip.owner_id == owner, Clip.bucket == bucket).first()`
(main.py lines 80 and 99). -/
def findClip (clips : List Clip) (owner bucket : String) : Option Clip :=
  clips.find? (fun c => c.owner_id == owner && c.bucket == bucket)

/-- The in-place ORM update `clip.content = content.content` (main.py line 82):
the fetched row is the first row matching the key, and only its `content`
column changes. -/
def replaceFirstClip : List Clip → String → String → String → List Clip
  | [], _, _, _ => []
  | c :: rest, owner, bucket, content =>
    if c.owner_id == owner && c.bucket == bucket then
      ⟨c.owner_id, c.bucket, content⟩ :: rest
    else
      c :: replaceFirstClip rest owner bucket content

/-- Modelled from the spec: FastAPI's `APIKeyHeader` extraction of the
`X-API-Key` header is library code not present in src/main.py; per the spec
(§4.2, §7) a missing credential fails with `UnauthorizedError` (401), and the
in-repo check at main.py lines 68-70 maps an unmatched key to 401. -/
def get_current_user (db : DB) (apiKey : Option String) : Except ApiError User :=
  match apiKey with
  | none => Except.error ApiError.unauthorized
  | some key =>
    match db.findUserByApiKey key with
    | none => Except.error ApiError.unauthorized
    | some u => Except.ok u

/-- Body of `put_clip` (main.py lines 80-87) after the authenticated user is
resolved: upsert the clip keyed `(user.id, bucket)`. -/
def putClipSvc (db : DB) (owner bucket content : String) : DB :=
  match findClip db.clips owner bucket with
  | some _ => ⟨db.users, db.friendships, replaceFirstClip db.clips owner bucket content⟩
  | none => ⟨db.users, db.friendships, db.clips ++ [⟨owner, bucket, content⟩]⟩

/-- Body of `get_clip` (main.py lines 91-102) after the authenticated user is
resolved: 403 unless a friendship row exists in either orientation or the
requester is the owner, then 404 if the clip is absent, else the content. -/
def getClipSvc (db : DB) (requesterId ownerId bucket : String) : Except ApiError String :=
  if (db.friendshipQuery requesterId ownerId).isNone && requesterId != ownerId then
    Except.error ApiError.forbidden
  else
    match findClip db.clips ownerId bucket with
    | none => Except.error ApiError.notFound
    | some c => Except.ok c.content

/-- Body of `add_friend` (main.py lines 106-124) after the authenticated user
is resolved: 400 on self-friending, 404 on unknown friend id, no-op success
("already friends") when an edge exists in either orientation, otherwise
insert the single directed edge `(requesterId, friendId)`. -/
def addFriendSvc (db : DB) (requesterId friendId : String) : DB × Except ApiError String :=
  if friendId == requesterId then
    (db, Except.error ApiError.invalidRequest)
  else
    match db.findUserById friendId with
    | none => (db, Except.error ApiError.notFound)
    | some _ =>
      match db.friendshipQuery requesterId friendId with
      | some _ => (db, Except.ok "already friends")
      | none =>
        (⟨db.users, db.friendships ++ [⟨requesterId, friendId⟩], db.clips⟩,
         Except.ok "success")

/-- Handler of `PUT /clip/{bucket}` (main.py lines 78-87). -/
def put_clip (db : DB) (apiKey : Option String) (bucket content : String) :
    DB × Except ApiError String :=
  match get_current_user db apiKey with
  | Except.error e => (db, Except.error e)
  | Except.ok user => (putClipSvc db user.id bucket content, Except.ok "success")

/-- Handler of `GET /clip/{owner_id}/{bucket}` (main.py lines 89-102). -/
def get_clip (db : DB) (apiKey : Option String) (ownerId bucket : String) :
    DB × Except ApiError String :=
  match get_current_user db apiKey with
  | Except.error e => (db, Except.error e)
  | Except.ok user => (db, getClipSvc db user.id ownerId bucket)

/-- Handler of `POST /users/add/{friend_id}` (main.py lines 104-124). -/
def add_friend (db : DB) (apiKey : Option String) (friendId : String) :
    DB × Except ApiError String :=
  match get_current_user db apiKey with
  | Except.error e => (db, Except.error e)
  | Except.ok user => addFriendSvc db user.id friendId

/-- A friendship row exists between `a` and `b` in either orientation
(the spec's wording for the authorization predicate). -/
def friendEdge (db : DB) (a b : String) : Prop :=
  ∃ f ∈ db.friendships, (f.user_id = a ∧ f.friend_id = b) ∨ (f.user_id = b ∧ f.friend_id = a)

instance (db : DB) (a b : String) : Decidable (friendEdge db a b) := by
  unfold friendEdge
  infer_instance

/-- The key of a clip row, for stating per-key uniqueness. -/
def clipKey (c : Clip) : String × String := (c.owner_id, c.bucket)

instance {ε α : Type} [DecidableEq ε] [DecidableEq α] : DecidableEq (Except ε α) := fun x y =>
  match x, y with
  | Except.error a, Except.error b =>
    if h : a = b then isTrue (by rw [h]) else isFalse (fun hc => h (Except.error.inj hc))
  | Except.error _, Except.ok _ => isFalse (fun hc => Except.noConfusion hc)
  | Except.ok _, Except.error _ => isFalse (fun hc => Except.noConfusion hc)
  | Except.ok a, Except.ok b =>
    if h : a = b then isTrue (by rw [h]) else isFalse (fun hc => h (Except.ok.inj hc))

/-! ### Basic lemmas about the queries -/

theorem friendshipQuery_isSome_iff (db : DB) (a b : String) :
    (db.friendshipQuery a b).isSome ↔ friendEdge db a b := by
  unfold DB.friendshipQuery friendEdge
  rw [List.find?_isSome]
  constructor
  · rintro ⟨f, hf, hp⟩
    refine ⟨f, hf, ?_⟩
    simpa only [Bool.or_eq_true, Bool.and_eq_true, beq_iff_eq] using hp
  · rintro ⟨f, hf, hp⟩
    refine ⟨f, hf, ?_⟩
    simpa only [Bool.or_eq_true, Bool.and_eq_true, beq_iff_eq] using hp

theorem friendEdge_symm (db : DB) (a b : String) :
    friendEdge db a b ↔ friendEdge db b a := by
  unfold friendEdge
  constructor <;> rintro ⟨f, hf, hp⟩ <;> exact ⟨f, hf, hp.symm⟩

theorem friendshipQuery_eq_none_iff (db : DB) (a b : String) :
    db.friendshipQuery a b = none ↔ ¬ friendEdge db a b := by
  rw [← friendshipQuery_isSome_iff]
  cases db.friendshipQuery a b <;> simp

theorem findClip_eq_none_iff (clips : List Clip) (o b : String) :
    findClip clips o b = none ↔ ∀ c ∈ clips, ¬ (c.owner_id = o ∧ c.bucket = b) := by
  unfold findClip
  rw [List.find?_eq_none]
  constructor
  · intro h c hc
    have := h c hc
    simpa only [Bool.and_eq_true, beq_iff_eq] using this
  · intro h c hc
    have := h c hc
    simpa only [Bool.and_eq_true, beq_iff_eq] using this

theorem getClip_ok_of_edge (db : DB) (r o b : String)
    (hq : (db.friendshipQuery r o).isSome)
    (hc : ∃ c ∈ db.clips, c.owner_id = o ∧ c.bucket = b) :
    ∃ content, getClipSvc db r o b = Except.ok content := by
  obtain ⟨f, hf⟩ := Option.isSome_iff_exists.mp hq
  obtain ⟨c, hcmem, hco, hcb⟩ := hc
  have hfind : (findClip db.clips o b).isSome := by
    unfold findClip
    rw [List.find?_isSome]
    exact ⟨c, hcmem, by simp [hco, hcb]⟩
  obtain ⟨c', hc'⟩ := Option.isSome_iff_exists.mp hfind
  refine ⟨c'.content, ?_⟩
  unfold getClipSvc
  simp [hf, hc']

theorem getClip_forbidden_aux (db : DB) (r o b : String) (hne : r ≠ o)
    (hnf : ¬ friendEdge db r o) :
    getClipSvc db r o b = Except.error ApiError.forbidden := by
  have hq : db.friendshipQuery r o = none := (friendshipQuery_eq_none_iff db r o).mpr hnf
  unfold getClipSvc
  simp [hq, hne]

theorem guard_unauthorized (db : DB) (apiKey : Option String)
    (h : ∀ u ∈ db.users, apiKey ≠ some u.api_key) :
    get_current_user db apiKey = Except.error ApiError.unauthorized := by
  cases apiKey with
  | none => rfl
  | some k =>
    have hfind : db.findUserByApiKey k = none := by
      unfold DB.findUserByApiKey
      rw [List.find?_eq_none]
      intro u hu
      simp only [beq_iff_eq]
      intro he
      exact h u hu (by rw [he])
    simp [get_current_user, hfind]

/-! ### Lemmas about the clip upsert -/

theorem findClip_replaceFirst (clips : List Clip) (o b ct : String)
    (h : (findClip clips o b).isSome) :
    ∃ c, findClip (replaceFirstClip clips o b ct) o b = some c ∧ c.content = ct := by
  induction clips with
  | nil => simp [findClip] at h
  | cons c rest ih =>
    by_cases hc : (c.owner_id == o && c.bucket == b) = true
    · refine ⟨⟨c.owner_id, c.bucket, ct⟩, ?_, rfl⟩
      unfold replaceFirstClip
      rw [if_pos hc]
      unfold findClip
      exact List.find?_cons_of_pos _ hc
    · unfold replaceFirstClip
      rw [if_neg hc]
      unfold findClip at h ⊢
      rw [List.find?_cons_of_neg (p := fun c : Clip => c.owner_id == o && c.bucket == b) _ hc] at h ⊢
      exact ih h

theorem findClip_after_put (db : DB) (o b ct : String) :
    ∃ c, findClip (putClipSvc db o b ct).clips o b = some c ∧ c.content = ct := by
  unfold putClipSvc
  cases hq : findClip db.clips o b with
  | some c0 =>
    simp only
    exact findClip_replaceFirst db.clips o b ct (by rw [hq]; rfl)
  | none =>
    refine ⟨⟨o, b, ct⟩, ?_, rfl⟩
    simp only
    unfold findClip at hq ⊢
    rw [List.find?_append, hq]
    simp

theorem getClip_put_self (db : DB) (owner bucket content : String) :
    getClipSvc (putClipSvc db owner bucket content) owner owner bucket =
      Except.ok content := by
  obtain ⟨c, hfind, hct⟩ := findClip_after_put db owner bucket content
  unfold getClipSvc
  rw [hfind]
  simp [hct]

theorem replaceFirstClip_map_key (clips : List Clip) (o b ct : String) :
    (replaceFirstClip clips o b ct).map clipKey = clips.map clipKey := by
  induction clips with
  | nil => rfl
  | cons c rest ih =>
    by_cases hc : (c.owner_id == o && c.bucket == b) = true
    · unfold replaceFirstClip
      rw [if_pos hc]
      simp [clipKey]
    · unfold replaceFirstClip
      rw [if_neg hc]
      simp only [List.map_cons, ih]

theorem putClip_preserves_nodup (db : DB) (o b ct : String)
    (h : (db.clips.map clipKey).Nodup) :
    ((putClipSvc db o b ct).clips.map clipKey).Nodup := by
  unfold putClipSvc
  cases hq : findClip db.clips o b with
  | some c0 =>
    simp only
    rw [replaceFirstClip_map_key]
    exact h
  | none =>
    simp only
    rw [List.map_append]
    have hnot : (o, b) ∉ db.clips.map clipKey := by
      intro hmem
      obtain ⟨c, hcmem, hck⟩ := List.mem_map.mp hmem
      have hno := (findClip_eq_none_iff db.clips o b).mp hq c hcmem
      exact hno ⟨congrArg Prod.fst hck, congrArg Prod.snd hck⟩
    rw [List.nodup_append]
    refine ⟨h, List.nodup_singleton _, ?_⟩
    intro x hx hx1
    simp only [List.map_cons, List.map_nil, List.mem_singleton, clipKey] at hx1
    subst hx1
    exact hnot hx

theorem replaceFirstClip_filter_ne (clips : List Clip) (o b ct : String) :
    (replaceFirstClip clips o b ct).filter (fun c => !(c.owner_id == o && c.bucket == b)) =
      clips.filter (fun c => !(c.owner_id == o && c.bucket == b)) := by
  induction clips with
  | nil => rfl
  | cons c rest ih =>
    by_cases hc : (c.owner_id == o && c.bucket == b) = true
    · unfold replaceFirstClip
      rw [if_pos hc]
      rw [List.filter_cons, List.filter_cons]
      simp only [Bool.and_eq_true] at hc
      simp [hc.1, hc.2]
    · unfold replaceFirstClip
      rw [if_neg hc]
      have hc' : (c.owner_id == o && c.bucket == b) = false := by
        cases hb : (c.owner_id == o && c.bucket == b) with
        | false => rfl
        | true => exact absurd hb hc
      rw [List.filter_cons, List.filter_cons, hc', ih]

/-! ### Lemmas about add_friend -/

theorem addFriend_ok_gives_edge (db db' : DB) (A B resp : String)
    (h : addFriendSvc db A B = (db', Except.ok resp)) :
    friendEdge db' A B := by
  unfold addFriendSvc at h
  by_cases hself : (B == A) = true
  · rw [if_pos hself] at h
    exact absurd (congrArg Prod.snd h) (by simp)
  · rw [if_neg hself] at h
    cases hu : db.findUserById B with
    | none =>
      rw [hu] at h
      exact absurd (congrArg Prod.snd h) (by simp)
    | some u =>
      rw [hu] at h
      cases hq : db.friendshipQuery A B with
      | some f =>
        rw [hq] at h
        have hdb : db' = db := (congrArg Prod.fst h).symm
        subst hdb
        exact (friendshipQuery_isSome_iff db' A B).mp (by rw [hq]; rfl)
      | none =>
        rw [hq] at h
        have hdb : db' = ⟨db.users, db.friendships ++ [⟨A, B⟩], db.clips⟩ :=
          (congrArg Prod.fst h).symm
        subst hdb
        exact ⟨⟨A, B⟩, by simp, Or.inl ⟨rfl, rfl⟩⟩

theorem addFriend_success_inv (db db' : DB) (X Y : String)
    (h : addFriendSvc db X Y = (db', Except.ok "success")) :
    Y ≠ X ∧ db' = ⟨db.users, db.friendships ++ [⟨X, Y⟩], db.clips⟩ := by
  unfold addFriendSvc at h
  by_cases hself : (Y == X) = true
  · rw [if_pos hself] at h
    exact absurd (congrArg Prod.snd h) (by simp)
  · rw [if_neg hself] at h
    refine ⟨by simpa using hself, ?_⟩
    cases hu : db.findUserById Y with
    | none =>
      rw [hu] at h
      exact absurd (congrArg Prod.snd h) (by simp)
    | some u =>
      rw [hu] at h
      cases hq : db.friendshipQuery X Y with
      | some f =>
        rw [hq] at h
        have h2 := congrArg Prod.snd h
        simp at h2
      | none =>
        rw [hq] at h
        exact (congrArg Prod.fst h).symm

theorem addFriend_already (db : DB) (A B : String)
    (hne : B ≠ A)
    (hBuser : ∃ u ∈ db.users, u.id = B)
    (hedge : friendEdge db A B) :
    addFriendSvc db A B = (db, Except.ok "already friends") := by
  have hba : (B == A) = false := by simp [hne]
  have hu : (db.findUserById B).isSome := by
    unfold DB.findUserById
    rw [List.find?_isSome]
    obtain ⟨u, hmem, hid⟩ := hBuser
    exact ⟨u, hmem, by simp [hid]⟩
  obtain ⟨u, huq⟩ := Option.isSome_iff_exists.mp hu
  have hq : (db.friendshipQuery A B).isSome := (friendshipQuery_isSome_iff db A B).mpr hedge
  obtain ⟨f, hfq⟩ := Option.isSome_iff_exists.mp hq
  unfold addFriendSvc
  simp [hba, huq, hfq]

/-! ### Concrete states used by the witnesses -/

/-- Two registered users, no friendships, one clip per user. -/
def dbPair : DB :=
  ⟨[⟨"alice", "key-alice"⟩, ⟨"bob", "key-bob"⟩], [],
   [⟨"alice", "work", "hello"⟩, ⟨"bob", "notes", "hi"⟩]⟩

/-- `dbPair` after bob added alice: the directed edge ("bob", "alice"). -/
def dbPairBobAlice : DB :=
  ⟨[⟨"alice", "key-alice"⟩, ⟨"bob", "key-bob"⟩], [⟨"bob", "alice"⟩],
   [⟨"alice", "work", "hello"⟩, ⟨"bob", "notes", "hi"⟩]⟩

/-- `dbPair` after alice added bob: the directed edge ("alice", "bob"). -/
def dbPairAliceBob : DB :=
  ⟨[⟨"alice", "key-alice"⟩, ⟨"bob", "key-bob"⟩], [⟨"alice", "bob"⟩],
   [⟨"alice", "work", "hello"⟩, ⟨"bob", "notes", "hi"⟩]⟩

/-! ### The claims -/

/-- C1: for distinct users A and B, after a single successful AddFriend(A, B)
call (which stores only the directed edge (A, B)), authorization holds in both
directions: GetClip(A, B, bucket) and GetClip(B, A, bucket) both pass the
authorization check and succeed whenever a clip exists at the requested
(owner, bucket) key. -/
theorem addFriend_bidirectional_read (db db' : DB) (A B bucket resp : String)
    (_hAB : A ≠ B)
    (h : addFriendSvc db A B = (db', Except.ok resp)) :
    ((∃ c ∈ db'.clips, c.owner_id = B ∧ c.bucket = bucket) →
      ∃ content, getClipSvc db' A B bucket = Except.ok content) ∧
    ((∃ c ∈ db'.clips, c.owner_id = A ∧ c.bucket = bucket) →
      ∃ content, getClipSvc db' B A bucket = Except.ok content) := by
  have hedge : friendEdge db' A B := addFriend_ok_gives_edge db db' A B resp h
  constructor
  · intro hc
    exact getClip_ok_of_edge db' A B bucket
      ((friendshipQuery_isSome_iff db' A B).mpr hedge) hc
  · intro hc
    exact getClip_ok_of_edge db' B A bucket
      ((friendshipQuery_isSome_iff db' B A).mpr ((friendEdge_symm db' A B).mp hedge)) hc

theorem addFriend_bidirectional_read_witness :
    ((∃ c ∈ dbPairBobAlice.clips, c.owner_id = "alice" ∧ c.bucket = "work") →
      ∃ content, getClipSvc dbPairBobAlice "bob" "alice" "work" = Except.ok content) ∧
    ((∃ c ∈ dbPairBobAlice.clips, c.owner_id = "bob" ∧ c.bucket = "notes") →
      ∃ content, getClipSvc dbPairBobAlice "alice" "bob" "notes" = Except.ok content) :=
  ⟨(addFriend_bidirectional_read dbPair dbPairBobAlice "bob" "alice" "work" "success"
      (by decide) (by decide)).1,
   (addFriend_bidirectional_read dbPair dbPairBobAlice "bob" "alice" "notes" "success"
      (by decide) (by decide)).2⟩

/-- C2: for every owner and every (bucket, content), PutClip(owner, bucket,
content) followed by GetClip(owner, owner, bucket) returns exactly the stored
content, verbatim. -/
theorem put_get_roundtrip (db : DB) (owner bucket content : String) :
    getClipSvc (putClipSvc db owner bucket content) owner owner bucket =
      Except.ok content :=
  getClip_put_self db owner bucket content

/-- C3: when requester differs from owner and no friendship row exists in
either orientation between the pair, GetClip fails with ForbiddenError for
every bucket. -/
theorem getClip_forbidden_without_edge (db : DB) (requester owner bucket : String)
    (hne : requester ≠ owner) (hnf : ¬ friendEdge db requester owner) :
    getClipSvc db requester owner bucket = Except.error ApiError.forbidden :=
  getClip_forbidden_aux db requester owner bucket hne hnf

theorem getClip_forbidden_without_edge_witness :
    getClipSvc dbPair "bob" "alice" "work" = Except.error ApiError.forbidden :=
  getClip_forbidden_without_edge dbPair "bob" "alice" "work" (by decide) (by decide)

/-- C4 counterexample: in a state where no clip was ever written, an
unauthorized requester gets ForbiddenError, not NotFoundError, so "fails with
NotFoundError regardless of whether the requester is authorized" is false. -/
theorem getClip_neverWritten_cex :
    dbPair.friendships = [] ∧
    (∀ c ∈ dbPair.clips, ¬ (c.owner_id = "alice" ∧ c.bucket = "missing")) ∧
    getClipSvc dbPair "bob" "alice" "missing" ≠ Except.error ApiError.notFound ∧
    getClipSvc dbPair "bob" "alice" "missing" = Except.error ApiError.forbidden := by
  refine ⟨rfl, by decide, by decide, by decide⟩

/-- C4 amended: for every requester that is authorized to read the owner's
clips (requester equals owner, or a friendship row exists in either
orientation), if no clip was ever written at (owner, bucket) then GetClip
fails with NotFoundError; an unauthorized requester gets ForbiddenError
instead. -/
theorem getClip_notFound_when_authorized (db : DB) (requester owner bucket : String)
    (hauth : requester = owner ∨ friendEdge db requester owner)
    (hnoclip : ∀ c ∈ db.clips, ¬ (c.owner_id = owner ∧ c.bucket = bucket)) :
    getClipSvc db requester owner bucket = Except.error ApiError.notFound := by
  have hfind : findClip db.clips owner bucket = none :=
    (findClip_eq_none_iff db.clips owner bucket).mpr hnoclip
  unfold getClipSvc
  rcases hauth with heq | hedge
  · subst heq
    simp [hfind]
  · obtain ⟨f, hf⟩ := Option.isSome_iff_exists.mp
      ((friendshipQuery_isSome_iff db requester owner).mpr hedge)
    simp [hf, hfind]

theorem getClip_notFound_when_authorized_witness :
    getClipSvc dbPair "alice" "alice" "missing" = Except.error ApiError.notFound :=
  getClip_notFound_when_authorized dbPair "alice" "alice" "missing" (Or.inl rfl) (by decide)

/-- C5: AddFriend is disjunctively idempotent: when AddFriend(A, B) is called
with an edge already present in either orientation (stored by a prior
successful AddFriend(A, B) or AddFriend(B, A)), the repeat call leaves the
friendship relation unchanged and reports success with status
"already friends", while the prior call reported "success". -/
theorem addFriend_repeat_noop (db db' : DB) (A B X Y : String)
    (hXY : (X = A ∧ Y = B) ∨ (X = B ∧ Y = A))
    (hBuser : ∃ u ∈ db.users, u.id = B)
    (h : addFriendSvc db X Y = (db', Except.ok "success")) :
    addFriendSvc db' A B = (db', Except.ok "already friends") := by
  obtain ⟨hYX, hdb⟩ := addFriend_success_inv db db' X Y h
  have hBA : B ≠ A := by
    rcases hXY with ⟨hx, hy⟩ | ⟨hx, hy⟩
    · subst hx; subst hy; exact hYX
    · subst hx; subst hy; exact fun hc => hYX hc.symm
  have hBuser' : ∃ u ∈ db'.users, u.id = B := by rw [hdb]; exact hBuser
  have hedge : friendEdge db' A B := by
    rw [hdb]
    refine ⟨⟨X, Y⟩, by simp, ?_⟩
    rcases hXY with ⟨hx, hy⟩ | ⟨hx, hy⟩
    · exact Or.inl ⟨hx, hy⟩
    · exact Or.inr ⟨hx, hy⟩
  exact addFriend_already db' A B hBA hBuser' hedge

theorem addFriend_repeat_noop_witness :
    addFriendSvc dbPairAliceBob "bob" "alice" =
      (dbPairAliceBob, Except.ok "already friends") :=
  addFriend_repeat_noop dbPair dbPairAliceBob "bob" "alice" "alice" "bob"
    (Or.inr ⟨rfl, rfl⟩) (by decide) (by decide)

/-- C6: AddFriend(requester, friendId) fails with InvalidRequestError exactly
when friendId equals requester (the self-check runs first, unconditionally on
user existence); otherwise it fails with NotFoundError exactly when no user
with id friendId exists; otherwise it inserts the single directed edge
(requester, friendId) when no edge exists, and is a success no-op when one
does. -/
theorem addFriend_check_order (db : DB) (requester friendId : String) :
    (friendId = requester →
      addFriendSvc db requester friendId = (db, Except.error ApiError.invalidRequest)) ∧
    (friendId ≠ requester → (∀ u ∈ db.users, u.id ≠ friendId) →
      addFriendSvc db requester friendId = (db, Except.error ApiError.notFound)) ∧
    (friendId ≠ requester → (∃ u ∈ db.users, u.id = friendId) →
      ¬ friendEdge db requester friendId →
      addFriendSvc db requester friendId =
        (⟨db.users, db.friendships ++ [⟨requester, friendId⟩], db.clips⟩,
         Except.ok "success")) ∧
    (friendId ≠ requester → (∃ u ∈ db.users, u.id = friendId) →
      friendEdge db requester friendId →
      addFriendSvc db requester friendId = (db, Except.ok "already friends")) := by
  refine ⟨?_, ?_, ?_, ?_⟩
  · intro heq
    subst heq
    unfold addFriendSvc
    simp
  · intro hne hnone
    have hfr : (friendId == requester) = false := by simp [hne]
    have hu : db.findUserById friendId = none := by
      unfold DB.findUserById
      rw [List.find?_eq_none]
      intro u hmem
      simp only [beq_iff_eq]
      exact hnone u hmem
    unfold addFriendSvc
    simp [hfr, hu]
  · intro hne huser hnoedge
    have hfr : (friendId == requester) = false := by simp [hne]
    have hu : (db.findUserById friendId).isSome := by
      unfold DB.findUserById
      rw [List.find?_isSome]
      obtain ⟨u, hmem, hid⟩ := huser
      exact ⟨u, hmem, by simp [hid]⟩
    obtain ⟨u, huq⟩ := Option.isSome_iff_exists.mp hu
    have hq : db.friendshipQuery requester friendId = none :=
      (friendshipQuery_eq_none_iff db requester friendId).mpr hnoedge
    unfold addFriendSvc
    simp [hfr, huq, hq]
  · intro hne huser hedge
    exact addFriend_already db requester friendId hne huser hedge

theorem addFriend_check_order_witness :
    addFriendSvc dbPair "alice" "alice" = (dbPair, Except.error ApiError.invalidRequest) ∧
    addFriendSvc dbPair "alice" "carol" = (dbPair, Except.error ApiError.notFound) ∧
    addFriendSvc dbPair "alice" "bob" =
      (⟨dbPair.users, dbPair.friendships ++ [⟨"alice", "bob"⟩], dbPair.clips⟩,
       Except.ok "success") ∧
    addFriendSvc dbPairAliceBob "alice" "bob" =
      (dbPairAliceBob, Except.ok "already friends") :=
  ⟨(addFriend_check_order dbPair "alice" "alice").1 rfl,
   (addFriend_check_order dbPair "alice" "carol").2.1 (by decide) (by decide),
   (addFriend_check_order dbPair "alice" "bob").2.2.1 (by decide) (by decide) (by decide),
   (addFriend_check_order dbPairAliceBob "alice" "bob").2.2.2
     (by decide) (by decide) (by decide)⟩

/-- C7: PutClip overwrites destructively: after PutClip(owner, bucket, "a")
then PutClip(owner, bucket, "b"), GetClip(owner, owner, bucket) returns "b",
and when the state had at most one clip row per (owner_id, bucket) key it
still does afterwards. -/
theorem putClip_overwrite_unique (db : DB) (owner bucket : String)
    (h : (db.clips.map clipKey).Nodup) :
    getClipSvc (putClipSvc (putClipSvc db owner bucket "a") owner bucket "b")
      owner owner bucket = Except.ok "b" ∧
    ((putClipSvc (putClipSvc db owner bucket "a") owner bucket "b").clips.map
      clipKey).Nodup :=
  ⟨getClip_put_self (putClipSvc db owner bucket "a") owner bucket "b",
   putClip_preserves_nodup (putClipSvc db owner bucket "a") owner bucket "b"
     (putClip_preserves_nodup db owner bucket "a" h)⟩

theorem putClip_overwrite_unique_witness :
    getClipSvc (putClipSvc (putClipSvc dbPair "alice" "scratch" "a") "alice" "scratch" "b")
      "alice" "alice" "scratch" = Except.ok "b" ∧
    ((putClipSvc (putClipSvc dbPair "alice" "scratch" "a") "alice" "scratch" "b").clips.map
      clipKey).Nodup :=
  putClip_overwrite_unique dbPair "alice" "scratch" (by decide)

/-- C8: on each of the three endpoints, a request whose X-API-Key header is
missing or does not match any stored user api_key fails with
UnauthorizedError (HTTP 401) and leaves the whole database (users,
friendships, clips) unchanged. -/
theorem auth_guard_rejects (db : DB) (apiKey : Option String)
    (h : ∀ u ∈ db.users, apiKey ≠ some u.api_key)
    (bucket content ownerId friendId : String) :
    put_clip db apiKey bucket content = (db, Except.error ApiError.unauthorized) ∧
    get_clip db apiKey ownerId bucket = (db, Except.error ApiError.unauthorized) ∧
    add_friend db apiKey friendId = (db, Except.error ApiError.unauthorized) ∧
    ApiError.unauthorized.status = 401 := by
  have hg := guard_unauthorized db apiKey h
  refine ⟨?_, ?_, ?_, rfl⟩ <;> simp [put_clip, get_clip, add_friend, hg]

theorem auth_guard_rejects_witness :
    put_clip dbPair (some "wrong-key") "work" "x" =
      (dbPair, Except.error ApiError.unauthorized) ∧
    get_clip dbPair (some "wrong-key") "alice" "work" =
      (dbPair, Except.error ApiError.unauthorized) ∧
    add_friend dbPair (some "wrong-key") "bob" =
      (dbPair, Except.error ApiError.unauthorized) ∧
    ApiError.unauthorized.status = 401 :=
  auth_guard_rejects dbPair (some "wrong-key") (by decide) "work" "x" "alice" "bob"

/-- C9: in GetClip the authorization check precedes the existence check: a
requester distinct from the owner with no friendship row in either
orientation gets ForbiddenError even when no clip exists at (owner, bucket) —
never NotFoundError. -/
theorem getClip_forbidden_precedes_notFound (db : DB) (requester owner bucket : String)
    (hne : requester ≠ owner) (hnf : ¬ friendEdge db requester owner)
    (_hnoclip : ∀ c ∈ db.clips, ¬ (c.owner_id = owner ∧ c.bucket = bucket)) :
    getClipSvc db requester owner bucket = Except.error ApiError.forbidden ∧
    getClipSvc db requester owner bucket ≠ Except.error ApiError.notFound := by
  have hforb := getClip_forbidden_aux db requester owner bucket hne hnf
  refine ⟨hforb, ?_⟩
  rw [hforb]
  simp

theorem getClip_forbidden_precedes_notFound_witness :
    getClipSvc dbPair "bob" "alice" "missing" = Except.error ApiError.forbidden ∧
    getClipSvc dbPair "bob" "alice" "missing" ≠ Except.error ApiError.notFound :=
  getClip_forbidden_precedes_notFound dbPair "bob" "alice" "missing"
    (by decide) (by decide) (by decide)

/-- C10: PutClip(owner, bucket, content) modifies only the clip row keyed
(owner, bucket): the users relation, the friendships relation, and every clip
row with a different (owner_id, bucket) key are unchanged, for every input. -/
theorem putClip_frame (db : DB) (owner bucket content : String) :
    (putClipSvc db owner bucket content).users = db.users ∧
    (putClipSvc db owner bucket content).friendships = db.friendships ∧
    (putClipSvc db owner bucket content).clips.filter
        (fun c => !(c.owner_id == owner && c.bucket == bucket)) =
      db.clips.filter (fun c => !(c.owner_id == owner && c.bucket == bucket)) := by
  unfold putClipSvc
  cases hq : findClip db.clips owner bucket with
  | some c0 =>
    refine ⟨rfl, rfl, ?_⟩
    exact replaceFirstClip_filter_ne db.clips owner bucket content
  | none =>
    refine ⟨rfl, rfl, ?_⟩
    rw [List.filter_append]
    simp
